import Mathlib

/-!
Verification development for the terrace-detection pipeline
(master_terrasses.py): tiled slope computation, slope-break masking,
per-tile vectorization, global union with chunked fallback, elevation
sampling and the terrace/wall classifier.

Modelling conventions:
* Scalar values (float64 in the program) are modelled as exact rationals.
* External library functions (numpy sqrt/hypot, scipy sobel, shapely
  geometry operations, rasterio reading/tracing) are taken as parameters:
  the theorems quantify over them, and witnesses instantiate them with
  concrete computable stand-ins that agree with the library behaviour on
  the inputs at which they are evaluated.
* Raster blocks (2-D numpy arrays) are modelled as lists of row lists.
-/

set_option autoImplicit false

namespace Terrasses

/-! ### Configuration constants (the PARAMETRES block of the script) -/

def SEUIL_PENTE : ℚ := 15

def SIMPLIFY_TOL : ℚ := 2

def MIN_AREA : ℚ := 20

def MAX_AREA : ℚ := 10000

def PAD_CALC : ℕ := 8

def SEUIL_ASYM : ℚ := 7 / 10

def DIST_SONDAGE : ℚ := 5

/-! ### Raster blocks -/

/-- A raster block: a list of rows, each a list of samples. -/
abbrev Mat (α : Type) := List (List α)

/-- Entry access with a default value, mirroring in-bounds numpy indexing
(out-of-range indices return the default). -/
def entryM {α : Type} (d : α) (m : Mat α) (i j : ℕ) : α :=
  (m.getD i []).getD j d

/-- The shape predicate for a rectangular block: exactly h rows of width w. -/
def isShapeP {α : Type} (m : Mat α) (h w : ℕ) : Prop :=
  m.length = h ∧ ∀ r ∈ m, r.length = w

/-- Boolean shape test, mirroring the comparison
slope_clean.shape != (h_target, w_target) in etape_pente. -/
def shapeOk {α : Type} (m : Mat α) (h w : ℕ) : Bool :=
  m.length = h && m.all (fun r => r.length = w)

/-- np.zeros((h, w)). -/
def zerosM (h w : ℕ) : Mat ℚ :=
  List.replicate h (List.replicate w 0)

/-- Elementwise combination of two blocks, mirroring np.hypot(sx, sy)
for an abstract binary operation. -/
def zipWith2 (f : ℚ → ℚ → ℚ) (a b : Mat ℚ) : Mat ℚ :=
  List.zipWith (List.zipWith f) a b

/-- The slice slope[pad : pad+h, pad : pad+w] of etape_pente. -/
def cropM (pad h w : ℕ) (m : Mat ℚ) : Mat ℚ :=
  ((m.drop pad).take h).map (fun r => (r.drop pad).take w)

/-! ### Stage 1: slope block (etape_pente inner loop)

The scipy gradient operators (ndimage.sobel along axis 0 and axis 1) and
the numpy combiner np.hypot are external collaborators, passed as the
parameters sob0, sob1 and hypotF.  The code reads a padded window, applies
the operators, combines, crops back to the block extent and substitutes a
zero block when the cropped shape is off. -/

def slopeBlock (sob0 sob1 : Mat ℚ → Mat ℚ) (hypotF : ℚ → ℚ → ℚ)
    (pad h w : ℕ) (data : Mat ℚ) : Mat ℚ :=
  let sy := sob0 data
  let sx := sob1 data
  let slope := zipWith2 hypotF sx sy
  let clean := cropM pad h w slope
  if shapeOk clean h w then clean else zerosM h w

/-! ### Stage 2: break mask (etape_ruptures inner loop) -/

/-- np.where(data > seuil, 1, 0) at one pixel. -/
def maskVal (t v : ℚ) : ℕ :=
  if t < v then 1 else 0

/-- The mask of one block. -/
def maskBlock (t : ℚ) (m : Mat ℚ) : Mat ℕ :=
  m.map (List.map (maskVal t))

/-! ### Stage 3 worker: per-tile vectorization (process_window_batch)

Shapely geometry objects are opaque handles; their operations (simplify,
buffer with round join style, validity and emptiness tests, area) are
external collaborators collected in a WOps record.  Tracing a mask window
into raw polygons (rasterio features.shapes) is likewise external: the
worker is modelled from the point where the traced geometries of each
window are in hand. -/

structure WOps (G : Type) where
  simplify : ℚ → G → G
  isEmpty : G → Bool
  isValid : G → Bool
  buffer : ℚ → G → G
  area : G → ℚ

/-- The processing of one traced geometry inside the worker loop:
simplify, drop if empty, close with buffer(+3) then buffer(-3), drop if
empty, repair with buffer(0) if invalid, then keep only areas inside
[min_area, 10000]. -/
def processGeom {G : Type} (ops : WOps G) (minArea tol : ℚ) (g : G) :
    Option G :=
  let s := ops.simplify tol g
  if ops.isEmpty s then none
  else
    let sm := ops.buffer (-3) (ops.buffer 3 s)
    if ops.isEmpty sm then none
    else
      let sm2 := if ops.isValid sm then sm else ops.buffer 0 sm
      if ops.area sm2 < minArea then none
      else if ops.area sm2 > 10000 then none
      else some sm2

/-- The geometry produced by the smoothing part of processGeom (after the
closing and the validity repair), whose area the filter inspects. -/
def closedOf {G : Type} (ops : WOps G) (tol : ℚ) (g : G) : G :=
  let s := ops.simplify tol g
  let sm := ops.buffer (-3) (ops.buffer 3 s)
  if ops.isValid sm then sm else ops.buffer 0 sm

/-- One worker batch: every window contributes the surviving processed
geometries of its traced shapes, in order (a window with no mask pixels
traces no shapes and contributes nothing). -/
def processBatch {G : Type} (ops : WOps G) (minArea tol : ℚ)
    (traced : List (List G)) : List G :=
  traced.flatMap (fun ws => ws.filterMap (processGeom ops minArea tol))

/-! ### Stage 3 driver: global union with chunked fallback and export -/

/-- The Python chunking all_polygons[i:i+n] for i in range(0, len, n),
for a positive chunk size n. -/
def chunksOf {α : Type} (n : ℕ) (l : List α) : List (List α) :=
  match l with
  | [] => []
  | x :: xs => (x :: xs.take (n - 1)) :: chunksOf n (xs.drop (n - 1))
termination_by l.length
decreasing_by simp [List.length_drop]; omega

theorem chunksOf_flatten {α : Type} (n : ℕ) (l : List α) :
    (chunksOf n l).flatten = l := by
  induction l using chunksOf.induct n with
  | case1 => simp [chunksOf]
  | case2 x xs ih =>
      rw [chunksOf]
      simp only [List.flatten_cons, ih, List.cons_append,
        List.take_append_drop]

theorem chunksOf_mem_length_le {α : Type} (n : ℕ) (hn : 0 < n)
    (l : List α) : ∀ c ∈ chunksOf n l, c ≠ [] ∧ c.length ≤ n := by
  induction l using chunksOf.induct n with
  | case1 => simp [chunksOf]
  | case2 x xs ih =>
      rw [chunksOf]
      intro c hc
      rcases List.mem_cons.mp hc with h | h
      · subst h
        refine ⟨by simp, ?_⟩
        have := List.length_take_le (n - 1) xs
        simp only [List.length_cons]
        omega
      · exact ih c h

/-- The global merge of etape_vectorisation: one bulk unary_union; on a
raised failure, union chunks of 1000 and then union the partial results.
A failure inside the fallback loop is not caught by the script and
propagates (modelled by the Except error). -/
def mergeGlobal {G E : Type} (uu : List G → Except E G) (polys : List G) :
    Except E G :=
  match uu polys with
  | .ok g => .ok g
  | .error _ =>
      match (chunksOf 1000 polys).mapM uu with
      | .ok parts => uu parts
      | .error e => .error e

/-- Export collaborators: final simplification, area recomputation,
multi-part decomposition of the merged geometry (geoms attribute), and
the reprojection/rounding/serialization of one polygon into a feature. -/
structure VOps (G F : Type) where
  simplify : ℚ → G → G
  area : G → ℚ
  parts : G → List G
  toFeature : G → F

/-- The export loop of etape_vectorisation: per final geometry, simplify
with tolerance 0.5, recompute the area, keep only areas inside
[MIN_AREA, MAX_AREA], and emit the serialized feature. -/
def exportGeoms {G F : Type} (ops : VOps G F) (geoms : List G) : List F :=
  geoms.filterMap (fun g =>
    let fp := ops.simplify (1 / 2) g
    let a := ops.area fp
    if a < MIN_AREA then none
    else if a > MAX_AREA then none
    else some (ops.toFeature fp))

/-- Outcome of the vectorization stage: an early return 0 with no output
file when no polygons were collected, a crash when a union failure
escapes, or a written feature list (the returned count is its length). -/
inductive VectResult (E F : Type) where
  | noPolygons : VectResult E F
  | failed : E → VectResult E F
  | written : List F → VectResult E F
deriving DecidableEq

/-- etape_vectorisation from the point where all worker polygons are
collected: empty check (early return, nothing written), global merge,
multi-part decomposition, export. -/
def etapeVectorisation {G E F : Type} (uu : List G → Except E G)
    (ops : VOps G F) (polys : List G) : VectResult E F :=
  if polys.isEmpty then .noPolygons
  else
    match mergeGlobal uu polys with
    | .error e => .failed e
    | .ok merged => .written (exportGeoms ops (ops.parts merged))

/-! ### Elevation grid and read_elev (etape_classification_mnt)

The opened elevation raster is modelled by its bounds, pixel dimensions,
its world-to-pixel index function (the rasterio affine inverse, an
external collaborator) and its sample values.  read_elev is translated
line by line from the closure in etape_classification_mnt. -/

structure GridM where
  left : ℚ
  right : ℚ
  bottom : ℚ
  top : ℚ
  width : ℕ
  height : ℕ
  idx : ℚ → ℚ → ℤ × ℤ
  dataAt : ℤ → ℤ → ℚ
  nodata : Option ℚ

/-- Read the elevation at a world point; None outside the spatial bounds,
outside the pixel array, at the no-data sentinel, or outside the sanity
range [-100, 5000]. -/
def read_elev (m : GridM) (x y : ℚ) : Option ℚ :=
  if x < m.left ∨ x > m.right ∨ y < m.bottom ∨ y > m.top then none
  else
    let rc := m.idx x y
    if 0 ≤ rc.1 ∧ rc.1 < (m.height : ℤ) ∧ 0 ≤ rc.2 ∧ rc.2 < (m.width : ℤ)
    then
      let elev := m.dataAt rc.1 rc.2
      if m.nodata = some elev then none
      else if elev < -100 ∨ elev > 5000 then none
      else some elev
    else none

/-! ### Classifier (etape_classification_mnt per-feature loop)

A polygon enters the classifier through its shapely-derived measurements:
emptiness, validity, area, perimeter (length) and the first three
exterior corners of its minimum rotated rectangle.  The square root and
pi of numpy are external collaborators (parameters sqrtF and piC). -/

structure Geom where
  geomIsEmpty : Bool
  geomIsValid : Bool
  area : ℚ
  perim : ℚ
  mrr0 : ℚ × ℚ
  mrr1 : ℚ × ℚ
  mrr2 : ℚ × ℚ
deriving DecidableEq

/-- Which counter the feature increments (count_err, count_sliver with
count_mur, count_mur, or count_terrasse). -/
inductive Outcome where
  | err : Outcome
  | sliver : Outcome
  | degenerate : Outcome
  | wallCompact : Outcome
  | terrace : Outcome
deriving DecidableEq

/-- Whether count_mur is incremented for this outcome. -/
def countsAsMur : Outcome → Bool
  | .sliver => true
  | .degenerate => true
  | .wallCompact => true
  | _ => false

/-- The final per-feature state: the written c and optional t and gc
properties, the written de property, and the incremented counter. -/
structure ClassOut where
  c : Char
  tId : Option ℕ
  gc : Option ℚ
  de : ℚ
  outcome : Outcome
deriving DecidableEq

/-- The principal axis chosen from the minimum rotated rectangle: the
longer of the first two edges (the first on a tie), returned as
(start, end, dx, dy). -/
def mrrAxis (sqrtF : ℚ → ℚ) (g : Geom) : (ℚ × ℚ) × (ℚ × ℚ) × ℚ × ℚ :=
  if sqrtF ((g.mrr2.1 - g.mrr1.1) ^ 2 + (g.mrr2.2 - g.mrr1.2) ^ 2)
      ≤ sqrtF ((g.mrr1.1 - g.mrr0.1) ^ 2 + (g.mrr1.2 - g.mrr0.2) ^ 2)
  then (g.mrr0, g.mrr1, g.mrr1.1 - g.mrr0.1, g.mrr1.2 - g.mrr0.2)
  else (g.mrr1, g.mrr2, g.mrr2.1 - g.mrr1.1, g.mrr2.2 - g.mrr1.2)

/-- The length of the chosen axis. -/
def axisLen (sqrtF : ℚ → ℚ) (g : Geom) : ℚ :=
  sqrtF ((mrrAxis sqrtF g).2.2.1 ^ 2 + (mrrAxis sqrtF g).2.2.2 ^ 2)

/-- The probe point on the positive perpendicular side at fraction frac
along the axis. -/
def stationA (sqrtF : ℚ → ℚ) (g : Geom) (frac : ℚ) : ℚ × ℚ :=
  let a := mrrAxis sqrtF g
  let len := axisLen sqrtF g
  (a.1.1 + (a.2.1.1 - a.1.1) * frac + -a.2.2.2 / len * DIST_SONDAGE,
   a.1.2 + (a.2.1.2 - a.1.2) * frac + a.2.2.1 / len * DIST_SONDAGE)

/-- The probe point on the negative perpendicular side at fraction frac
along the axis. -/
def stationB (sqrtF : ℚ → ℚ) (g : Geom) (frac : ℚ) : ℚ × ℚ :=
  let a := mrrAxis sqrtF g
  let len := axisLen sqrtF g
  (a.1.1 + (a.2.1.1 - a.1.1) * frac - -a.2.2.2 / len * DIST_SONDAGE,
   a.1.2 + (a.2.1.2 - a.1.2) * frac - a.2.2.1 / len * DIST_SONDAGE)

/-- The multi-probe loop: at 25%, 50% and 75% along the axis, the
absolute elevation difference of the two perpendicular samples, kept only
when both samples read a value. -/
def probeDeltas (sqrtF : ℚ → ℚ) (readE : ℚ → ℚ → Option ℚ) (g : Geom) :
    List ℚ :=
  [(1 : ℚ) / 4, 1 / 2, 3 / 4].filterMap (fun frac =>
    match readE (stationA sqrtF g frac).1 (stationA sqrtF g frac).2,
          readE (stationB sqrtF g frac).1 (stationB sqrtF g frac).2 with
    | some ea, some eb => some |ea - eb|
    | _, _ => none)

/-- The compactness score perim / (2 * sqrt(pi * area)), 1.0 for a
non-positive area. -/
def gcOf (sqrtF : ℚ → ℚ) (piC : ℚ) (g : Geom) : ℚ :=
  if 0 < g.area then g.perim / (2 * sqrtF (piC * g.area)) else 1

/-- Python round-half-to-even to an integer. -/
def rhe (q : ℚ) : ℤ :=
  if q - ⌊q⌋ < 1 / 2 then ⌊q⌋
  else if 1 / 2 < q - ⌊q⌋ then ⌊q⌋ + 1
  else if ⌊q⌋ % 2 = 0 then ⌊q⌋ else ⌊q⌋ + 1

/-- Python round(x, 2). -/
def round2 (q : ℚ) : ℚ :=
  (rhe (q * 100) : ℚ) / 100

/-- deltas.sort(); delta = deltas[len(deltas) // 2], with 0 for an empty
list. -/
def deltaRaw (ds : List ℚ) : ℚ :=
  if ds.isEmpty then 0
  else (ds.insertionSort (· ≤ ·)).getD (ds.length / 2) 0

/-- One feature of the classification loop: invalid-geometry guard,
sliver rejection, degenerate-axis guard, then the compactness decision
with the probe median stored as the de property. -/
def classifyFeat (sqrtF : ℚ → ℚ) (piC : ℚ) (readE : ℚ → ℚ → Option ℚ)
    (g : Geom) : ClassOut :=
  if g.geomIsEmpty || !g.geomIsValid then ⟨'m', none, none, 0, .err⟩
  else if 0 < g.area ∧ 20 < g.perim / sqrtF g.area then
    ⟨'m', none, none, 0, .sliver⟩
  else if axisLen sqrtF g = 0 then ⟨'m', none, none, 0, .degenerate⟩
  else
    let gcScore := gcOf sqrtF piC g
    let delta := deltaRaw (probeDeltas sqrtF readE g)
    if 5 < gcScore then
      ⟨'t', some 1, some (round2 gcScore), round2 delta, .terrace⟩
    else ⟨'m', some 0, some (round2 gcScore), round2 delta, .wallCompact⟩

/-! ### Concrete stand-ins for witnesses -/

/-- A concrete square-root stand-in for witness evaluation: it agrees
with the IEEE square root on the exact squares at which the witnesses
evaluate it (where the IEEE result is exact as well) and returns 0 at
other points; the theorems quantify over the square-root collaborator, so
any concrete choice is an admissible instantiation. -/
def ratSqrt (q : ℚ) : ℚ :=
  if q = 0 then 0
  else if q = 4 then 2
  else if q = 16 then 4
  else if q = 64 then 8
  else if q = 100 then 10
  else 0

/-- The float64 value of numpy pi as an exact rational. -/
def piQ : ℚ := 3141592653589793 / 1000000000000000

/-- Modelled from the spec: the statistical median of a list of values
(the middle element of the sorted list for odd length, the mean of the
two middle elements for even length, 0 for the empty list); stated for
comparison with the middle-element rule the code applies. -/
def statMedian (l : List ℚ) : ℚ :=
  let s := l.insertionSort (· ≤ ·)
  if l.isEmpty then 0
  else if l.length % 2 = 1 then s.getD (l.length / 2) 0
  else (s.getD (l.length / 2 - 1) 0 + s.getD (l.length / 2) 0) / 2

/-! ### Concrete data for witnesses and counterexamples -/

/-- A guard-passing polygon: area 16, perimeter 40, principal axis from
(0,0) to (8,0). -/
def geomW1 : Geom := ⟨false, true, 16, 40, (0, 0), (8, 0), (8, 2)⟩

/-- A sliver polygon: area 16, perimeter 100, ratio 25 above the cutoff
20. -/
def geomW2 : Geom := ⟨false, true, 16, 100, (0, 0), (8, 0), (8, 2)⟩

/-- A degenerate polygon whose minimum rotated rectangle collapses to a
point. -/
def geomW10 : Geom := ⟨false, true, 16, 20, (0, 0), (0, 0), (0, 0)⟩

/-- A guard-passing polygon probed against gridC6: area 16, perimeter 20,
principal axis from (0,0) to (8,0), perpendicular (0,1). -/
def geomC6 : Geom := ⟨false, true, 16, 20, (0, 0), (8, 0), (8, 2)⟩

/-- A concrete one-metre elevation grid over [0,10] by [-10,10] whose
values make exactly two probe stations of geomC6 valid, with elevation
differences 1 and 3 (the third station reads 6000, outside the sanity
range). -/
def gridC6 : GridM :=
  { left := 0, right := 10, bottom := -10, top := 10,
    width := 10, height := 20,
    idx := fun x y => (Int.floor ((10 : ℚ) - y), Int.floor x),
    dataAt := fun r c =>
      if r = 5 ∧ c = 2 then 10
      else if r = 15 ∧ c = 2 then 9
      else if r = 5 ∧ c = 4 then 10
      else if r = 15 ∧ c = 4 then 7
      else if r = 5 ∧ c = 6 then 6000
      else 100,
    nodata := some (-9999) }

/-- Worker geometry stand-in for the area-filter scenario: a convex
fragment is identified with its area; simplification and closing leave a
convex fragment unchanged. -/
def opsC4 : WOps ℚ :=
  { simplify := fun _ g => g, isEmpty := fun _ => false,
    isValid := fun _ => true, buffer := fun _ g => g, area := fun g => g }

/-- A concrete always-succeeding union collaborator. -/
def uuC3 : List ℕ → Except Unit ℕ := fun l => .ok l.sum

/-- Concrete export collaborators over natural-number geometry handles. -/
def opsC3 : VOps ℕ ℕ :=
  { simplify := fun _ g => g, area := fun g => (g : ℚ),
    parts := fun g => [g], toFeature := fun g => g }

/-! ### List and block access lemmas -/

theorem getD_map_in {α β : Type} (d : α) (e : β) (f : α → β) (l : List α)
    (j : ℕ) (hj : j < l.length) :
    (l.map f).getD j e = f (l.getD j d) := by
  induction l generalizing j with
  | nil => simp at hj
  | cons x xs ih =>
      cases j with
      | zero => simp
      | succ j => simpa using ih j (by simpa using hj)

theorem getD_take_lt {α : Type} (d : α) (l : List α) (n j : ℕ)
    (hj : j < n) : (l.take n).getD j d = l.getD j d := by
  induction l generalizing n j with
  | nil => simp
  | cons x xs ih =>
      cases n with
      | zero => omega
      | succ n =>
          cases j with
          | zero => simp
          | succ j => simpa using ih n j (by omega)

theorem getD_drop_add {α : Type} (d : α) (l : List α) (n j : ℕ) :
    (l.drop n).getD j d = l.getD (n + j) d := by
  induction l generalizing n with
  | nil => simp
  | cons x xs ih =>
      cases n with
      | zero => simp
      | succ n =>
          rw [List.drop_succ_cons, ih n, Nat.succ_add, List.getD_cons_succ]

theorem getD_zipWith (f : ℚ → ℚ → ℚ) (r s : List ℚ) (j : ℕ)
    (hr : j < r.length) (hs : j < s.length) :
    (List.zipWith f r s).getD j 0 = f (r.getD j 0) (s.getD j 0) := by
  induction r generalizing s j with
  | nil => simp at hr
  | cons x xs ih =>
      cases s with
      | nil => simp at hs
      | cons y ys =>
          cases j with
          | zero => simp
          | succ j => simpa using ih ys j (by simpa using hr) (by simpa using hs)

theorem entryM_zipWith2 (f : ℚ → ℚ → ℚ) (a b : Mat ℚ) (i j : ℕ)
    (hia : i < a.length) (hib : i < b.length)
    (hja : j < (a.getD i []).length) (hjb : j < (b.getD i []).length) :
    entryM 0 (zipWith2 f a b) i j = f (entryM 0 a i j) (entryM 0 b i j) := by
  unfold entryM zipWith2
  induction a generalizing b i with
  | nil => simp at hia
  | cons r a ih =>
      cases b with
      | nil => simp at hib
      | cons s b =>
          cases i with
          | zero =>
              simp only [List.zipWith_cons_cons, List.getD_cons_zero]
              exact getD_zipWith f r s j (by simpa using hja) (by simpa using hjb)
          | succ i =>
              simp only [List.zipWith_cons_cons, List.getD_cons_succ]
              exact ih b i (by simpa using hia) (by simpa using hib)
                (by simpa using hja) (by simpa using hjb)

theorem entryM_cropM (p h w : ℕ) (m : Mat ℚ) (i j : ℕ)
    (hi : i < h) (hj : j < w) (him : p + i < m.length) :
    entryM 0 (cropM p h w m) i j = entryM 0 m (p + i) (p + j) := by
  unfold entryM cropM
  have hlen : i < ((m.drop p).take h).length := by
    simp only [List.length_take, List.length_drop]
    omega
  rw [getD_map_in ([] : List ℚ) ([] : List ℚ) _ _ i hlen]
  rw [getD_take_lt _ _ _ _ hi, getD_drop_add]
  rw [getD_take_lt _ _ _ _ hj, getD_drop_add]

theorem isShapeP_zipWith2 (f : ℚ → ℚ → ℚ) (a b : Mat ℚ) (H W : ℕ)
    (ha : isShapeP a H W) (hb : isShapeP b H W) :
    isShapeP (zipWith2 f a b) H W := by
  obtain ⟨ha1, ha2⟩ := ha
  obtain ⟨hb1, hb2⟩ := hb
  constructor
  · simp [zipWith2, ha1, hb1]
  · intro r hr
    obtain ⟨i, hi, hri⟩ := List.mem_iff_getElem.mp hr
    have hia : i < a.length := by
      simp only [zipWith2, List.length_zipWith, ha1, hb1] at hi
      omega
    have hib : i < b.length := by
      simp only [zipWith2, List.length_zipWith, ha1, hb1] at hi
      omega
    rw [← hri]
    simp only [zipWith2]
    rw [List.getElem_zipWith]
    rw [List.length_zipWith, ha2 _ (List.getElem_mem hia),
      hb2 _ (List.getElem_mem hib)]
    omega

theorem isShapeP_cropM (p h w H W : ℕ) (m : Mat ℚ) (hm : isShapeP m H W)
    (hH : p + h ≤ H) (hW : p + w ≤ W) : isShapeP (cropM p h w m) h w := by
  obtain ⟨hm1, hm2⟩ := hm
  constructor
  · simp only [cropM, List.length_map, List.length_take, List.length_drop,
      hm1]
    omega
  · intro r hr
    simp only [cropM, List.mem_map] at hr
    obtain ⟨s, hs, hsr⟩ := hr
    have hsm : s ∈ m := List.mem_of_mem_drop (List.mem_of_mem_take hs)
    have := hm2 s hsm
    rw [← hsr]
    simp only [List.length_take, List.length_drop, this]
    omega

theorem shapeOk_eq_true_iff {α : Type} (m : Mat α) (h w : ℕ) :
    shapeOk m h w = true ↔ isShapeP m h w := by
  simp [shapeOk, isShapeP, List.all_eq_true]

/-! ### Claim theorems: slope and mask stages -/

/-- Claim C9: for every iteration block of the slope stage, the block
written to the output slope grid is the padded-window gradient magnitude
(the hypot combiner applied to the two axis gradients) cropped back to
the unpadded block extent, entry by entry at offset pad; and whenever the
cropped result fails the expected-shape test, a zero-filled block of the
expected shape is written instead. -/
theorem C9_slope_block (sob0 sob1 : Mat ℚ → Mat ℚ) (hypotF : ℚ → ℚ → ℚ)
    (pad h w : ℕ) (data bad : Mat ℚ)
    (hsx : isShapeP (sob1 data) (h + 2 * pad) (w + 2 * pad))
    (hsy : isShapeP (sob0 data) (h + 2 * pad) (w + 2 * pad))
    (hbad : shapeOk
      (cropM pad h w (zipWith2 hypotF (sob1 bad) (sob0 bad))) h w
        = false) :
    isShapeP (slopeBlock sob0 sob1 hypotF pad h w data) h w
    ∧ (∀ i j, i < h → j < w →
        entryM 0 (slopeBlock sob0 sob1 hypotF pad h w data) i j
          = hypotF (entryM 0 (sob1 data) (pad + i) (pad + j))
              (entryM 0 (sob0 data) (pad + i) (pad + j)))
    ∧ slopeBlock sob0 sob1 hypotF pad h w bad = zerosM h w := by
  have hslope : isShapeP (zipWith2 hypotF (sob1 data) (sob0 data))
      (h + 2 * pad) (w + 2 * pad) := isShapeP_zipWith2 _ _ _ _ _ hsx hsy
  have hcrop : isShapeP
      (cropM pad h w (zipWith2 hypotF (sob1 data) (sob0 data))) h w :=
    isShapeP_cropM _ _ _ _ _ _ hslope (by omega) (by omega)
  have hok : shapeOk
      (cropM pad h w (zipWith2 hypotF (sob1 data) (sob0 data))) h w
        = true := (shapeOk_eq_true_iff _ _ _).mpr hcrop
  refine ⟨?_, ?_, ?_⟩
  · simpa only [slopeBlock, hok, if_true] using hcrop
  · intro i j hi hj
    simp only [slopeBlock, hok, if_true]
    rw [entryM_cropM _ _ _ _ _ _ hi hj (by rw [hslope.1]; omega)]
    exact entryM_zipWith2 _ _ _ _ _
      (by rw [hsx.1]; omega) (by rw [hsy.1]; omega)
      (by rw [List.getD_eq_getElem _ _ (by rw [hsx.1]; omega),
            hsx.2 _ (List.getElem_mem _)]
          omega)
      (by rw [List.getD_eq_getElem _ _ (by rw [hsy.1]; omega),
            hsy.2 _ (List.getElem_mem _)]
          omega)
  · simp only [slopeBlock, hbad, Bool.false_eq_true, if_false]

/-- Witness for C9 at a concrete 3-by-3 padded block with pad 1 and a
degenerate empty block triggering the zero-fill fallback. -/
theorem C9_slope_block_witness :
    isShapeP (slopeBlock id id (fun a b => a + b) 1 1 1
      [[1, 2, 3], [4, 5, 6], [7, 8, 9]]) 1 1
    ∧ (∀ i j, i < 1 → j < 1 →
        entryM 0 (slopeBlock id id (fun a b => a + b) 1 1 1
          [[1, 2, 3], [4, 5, 6], [7, 8, 9]]) i j
          = (fun a b => a + b)
              (entryM 0 (id [[(1 : ℚ), 2, 3], [4, 5, 6], [7, 8, 9]])
                (1 + i) (1 + j))
              (entryM 0 (id [[(1 : ℚ), 2, 3], [4, 5, 6], [7, 8, 9]])
                (1 + i) (1 + j)))
    ∧ slopeBlock id id (fun a b => a + b) 1 1 1 ([] : Mat ℚ)
        = zerosM 1 1 :=
  C9_slope_block id id (fun a b => a + b) 1 1 1
    [[1, 2, 3], [4, 5, 6], [7, 8, 9]] []
    ((shapeOk_eq_true_iff _ _ _).mp (by decide))
    ((shapeOk_eq_true_iff _ _ _).mp (by decide)) (by decide)

/-- Claim C8: the break mask marks a pixel 1 exactly when its slope
strictly exceeds the threshold and 0 otherwise, in-bounds entries of the
mask block are the thresholded slope entries, and for thresholds
t1 less or equal t2 the t2 mask is pointwise less or equal the t1 mask. -/
theorem C8_break_mask_monotone (m : Mat ℚ) (t1 t2 : ℚ) (h : t1 ≤ t2) :
    (∀ t v, (maskVal t v = 1 ↔ t < v) ∧ (maskVal t v = 0 ↔ ¬t < v))
    ∧ (∀ t i j, i < m.length → j < (m.getD i []).length →
        entryM 0 (maskBlock t m) i j = maskVal t (entryM 0 m i j))
    ∧ (∀ i j, entryM 0 (maskBlock t2 m) i j
        ≤ entryM 0 (maskBlock t1 m) i j) := by
  have hmask : ∀ t i j, i < m.length → j < (m.getD i []).length →
      entryM 0 (maskBlock t m) i j = maskVal t (entryM 0 m i j) := by
    intro t i j hi hj
    unfold entryM maskBlock
    rw [getD_map_in ([] : List ℚ) ([] : List ℕ) _ _ i hi]
    rw [getD_map_in (0 : ℚ) (0 : ℕ) _ _ j hj]
  have hoob : ∀ t i j, ¬(i < m.length ∧ j < (m.getD i []).length) →
      entryM 0 (maskBlock t m) i j = 0 := by
    intro t i j hb
    unfold entryM maskBlock
    by_cases hi : i < m.length
    · have hj : (m.getD i []).length ≤ j := by omega
      rw [getD_map_in ([] : List ℚ) ([] : List ℕ) _ _ i hi]
      exact List.getD_eq_default _ _ (by simpa using hj)
    · have hlen : (m.map (List.map (maskVal t))).length ≤ i := by
        simpa using Nat.le_of_not_lt hi
      rw [List.getD_eq_default (m.map (List.map (maskVal t))) ([] : List ℕ) hlen]
      simp
  refine ⟨?_, hmask, ?_⟩
  · intro t v
    unfold maskVal
    split <;> simp_all
  · intro i j
    by_cases hb : i < m.length ∧ j < (m.getD i []).length
    · rw [hmask t1 i j hb.1 hb.2, hmask t2 i j hb.1 hb.2]
      unfold maskVal
      split
      · have : t1 < entryM 0 m i j := lt_of_le_of_lt h (by assumption)
        simp [this]
      · exact Nat.zero_le _
    · rw [hoob t1 i j hb, hoob t2 i j hb]

/-- Witness for C8 at a concrete two-pixel block and thresholds 15 and
16. -/
theorem C8_break_mask_monotone_witness :
    (∀ t v, (maskVal t v = 1 ↔ t < v) ∧ (maskVal t v = 0 ↔ ¬t < v))
    ∧ (∀ t i j, i < ([[(16 : ℚ), 14]] : Mat ℚ).length →
        j < (([[(16 : ℚ), 14]] : Mat ℚ).getD i []).length →
        entryM 0 (maskBlock t [[(16 : ℚ), 14]]) i j
          = maskVal t (entryM 0 [[(16 : ℚ), 14]] i j))
    ∧ (∀ i j, entryM 0 (maskBlock 16 [[(16 : ℚ), 14]]) i j
        ≤ entryM 0 (maskBlock 15 [[(16 : ℚ), 14]]) i j) :=
  C8_break_mask_monotone [[(16 : ℚ), 14]] 15 16 (by norm_num)

/-! ### Claim theorems: classifier -/

/-- The axis deltas returned by mrrAxis are the coordinate differences of
the returned axis endpoints. -/
theorem mrrAxis_delta (sqrtF : ℚ → ℚ) (g : Geom) :
    (mrrAxis sqrtF g).2.2
      = ((mrrAxis sqrtF g).2.1.1 - (mrrAxis sqrtF g).1.1,
         (mrrAxis sqrtF g).2.1.2 - (mrrAxis sqrtF g).1.2) := by
  unfold mrrAxis
  split <;> rfl

/-- Claim C1: for a classified polygon passing all the guards (non-empty,
valid, positive area, sliver ratio at most 20, non-degenerate principal
axis), the label is terrace exactly when the compactness score
perim / (2 * sqrt(pi * area)) strictly exceeds 5.0, wall exactly
otherwise; a score of exactly 5.0 yields wall. -/
theorem C1_compactness_decision (sqrtF : ℚ → ℚ) (piC : ℚ)
    (readE : ℚ → ℚ → Option ℚ) (g : Geom)
    (hE : g.geomIsEmpty = false) (hV : g.geomIsValid = true)
    (hA : 0 < g.area) (hS : g.perim / sqrtF g.area ≤ 20)
    (hL : axisLen sqrtF g ≠ 0) :
    ((classifyFeat sqrtF piC readE g).c = 't'
        ↔ 5 < g.perim / (2 * sqrtF (piC * g.area)))
    ∧ ((classifyFeat sqrtF piC readE g).c = 'm'
        ↔ ¬5 < g.perim / (2 * sqrtF (piC * g.area)))
    ∧ (g.perim / (2 * sqrtF (piC * g.area)) = 5
        → (classifyFeat sqrtF piC readE g).c = 'm') := by
  have hgc : gcOf sqrtF piC g = g.perim / (2 * sqrtF (piC * g.area)) := by
    unfold gcOf
    rw [if_pos hA]
  have hns : ¬(0 < g.area ∧ 20 < g.perim / sqrtF g.area) := by
    rintro ⟨-, hr⟩
    exact absurd hr (not_lt.mpr hS)
  unfold classifyFeat
  rw [hE, hV]
  simp only [Bool.not_true, Bool.or_false, Bool.false_eq_true, if_false,
    if_neg hns, if_neg hL]
  rw [hgc]
  by_cases h5 : 5 < g.perim / (2 * sqrtF (piC * g.area))
  · rw [if_pos h5]
    refine ⟨by simp [h5], by simp [h5], fun he => absurd h5 ?_⟩
    rw [he]
    exact lt_irrefl 5
  · rw [if_neg h5]
    exact ⟨by simp [h5], by simp [h5], fun _ => rfl⟩

/-- Witness for C1: a polygon of area 16 and perimeter 40 with axis
(0,0)-(8,0) passes every guard; the decision matches the compactness
comparison. -/
theorem C1_compactness_decision_witness :
    ((classifyFeat ratSqrt piQ (fun _ _ => none) geomW1).c = 't'
        ↔ 5 < geomW1.perim / (2 * ratSqrt (piQ * geomW1.area)))
    ∧ ((classifyFeat ratSqrt piQ (fun _ _ => none) geomW1).c = 'm'
        ↔ ¬5 < geomW1.perim / (2 * ratSqrt (piQ * geomW1.area)))
    ∧ (geomW1.perim / (2 * ratSqrt (piQ * geomW1.area)) = 5
        → (classifyFeat ratSqrt piQ (fun _ _ => none) geomW1).c = 'm') :=
  C1_compactness_decision ratSqrt piQ (fun _ _ => none) geomW1
    rfl rfl (by norm_num [geomW1])
    (by norm_num [geomW1, ratSqrt])
    (by norm_num [axisLen, mrrAxis, geomW1, ratSqrt])

/-- Claim C2: a non-empty valid polygon with positive area whose
perimeter over square root of area exceeds 20 is labelled wall
immediately as a sliver (de 0, no compactness score computed, no type id
written, counted as a wall), skipping the rest of the classification. -/
theorem C2_sliver_rule (sqrtF : ℚ → ℚ) (piC : ℚ)
    (readE : ℚ → ℚ → Option ℚ) (g : Geom)
    (hE : g.geomIsEmpty = false) (hV : g.geomIsValid = true)
    (hA : 0 < g.area) (hR : 20 < g.perim / sqrtF g.area) :
    classifyFeat sqrtF piC readE g = ⟨'m', none, none, 0, .sliver⟩
    ∧ countsAsMur Outcome.sliver = true := by
  refine ⟨?_, rfl⟩
  have hcond : 0 < g.area ∧ 20 < g.perim / sqrtF g.area := ⟨hA, hR⟩
  unfold classifyFeat
  rw [hE, hV]
  simp only [Bool.not_true, Bool.or_false, Bool.false_eq_true, if_false,
    if_pos hcond]

/-- Witness for C2: area 16 and perimeter 100 give ratio 25 above the
cutoff; the feature is classified as a sliver wall. -/
theorem C2_sliver_rule_witness :
    classifyFeat ratSqrt piQ (fun _ _ => none) geomW2
      = ⟨'m', none, none, 0, .sliver⟩
    ∧ countsAsMur Outcome.sliver = true :=
  C2_sliver_rule ratSqrt piQ (fun _ _ => none) geomW2
    rfl rfl (by norm_num [geomW2]) (by norm_num [geomW2, ratSqrt])

/-- Claim C10: a guard-passing polygon whose chosen principal axis has
coinciding endpoints (the degenerate minimum rotated rectangle) is
labelled wall with de 0 and counted as a wall, with no compactness score
and no probe recorded, through the early length-zero return (so the
perpendicular is never formed by dividing by the zero length). -/
theorem C10_degenerate_axis (sqrtF : ℚ → ℚ) (piC : ℚ)
    (readE : ℚ → ℚ → Option ℚ) (g : Geom)
    (hE : g.geomIsEmpty = false) (hV : g.geomIsValid = true)
    (hS : ¬(0 < g.area ∧ 20 < g.perim / sqrtF g.area))
    (hend : (mrrAxis sqrtF g).1 = (mrrAxis sqrtF g).2.1)
    (hs0 : sqrtF 0 = 0) :
    classifyFeat sqrtF piC readE g = ⟨'m', none, none, 0, .degenerate⟩
    ∧ (classifyFeat sqrtF piC readE g).gc = none
    ∧ countsAsMur Outcome.degenerate = true := by
  have hdelta := mrrAxis_delta sqrtF g
  have hdx : (mrrAxis sqrtF g).2.2.1 = 0 := by
    rw [hdelta]
    simp [hend.symm]
  have hdy : (mrrAxis sqrtF g).2.2.2 = 0 := by
    rw [hdelta]
    simp [hend.symm]
  have hlen : axisLen sqrtF g = 0 := by
    unfold axisLen
    rw [hdx, hdy]
    simpa using hs0
  have hmain : classifyFeat sqrtF piC readE g
      = ⟨'m', none, none, 0, .degenerate⟩ := by
    unfold classifyFeat
    rw [hE, hV]
    simp only [Bool.not_true, Bool.or_false, Bool.false_eq_true, if_false,
      if_neg hS, if_pos hlen]
  exact ⟨hmain, by rw [hmain], rfl⟩

/-- Witness for C10: a polygon whose minimum rotated rectangle is the
single point (0,0). -/
theorem C10_degenerate_axis_witness :
    classifyFeat ratSqrt piQ (fun _ _ => none) geomW10
      = ⟨'m', none, none, 0, .degenerate⟩
    ∧ (classifyFeat ratSqrt piQ (fun _ _ => none) geomW10).gc = none
    ∧ countsAsMur Outcome.degenerate = true :=
  C10_degenerate_axis ratSqrt piQ (fun _ _ => none) geomW10
    rfl rfl (by norm_num [geomW10, ratSqrt])
    (by norm_num [mrrAxis, geomW10, ratSqrt]) (by norm_num [ratSqrt])

/-- The principal axis of geomC6 runs from (0,0) to (8,0). -/
theorem mrrAxis_geomC6 : mrrAxis ratSqrt geomC6 = ((0, 0), (8, 0), 8, 0) := by
  norm_num [mrrAxis, geomC6, ratSqrt]

/-- The axis length of geomC6 is 8. -/
theorem axisLen_geomC6 : axisLen ratSqrt geomC6 = 8 := by
  norm_num [axisLen, mrrAxis_geomC6, ratSqrt]

/-- Probing geomC6 against gridC6 yields exactly the two differences 1
and 3 (the third station reads an out-of-range 6000 on one side). -/
theorem probeDeltas_gridC6 :
    probeDeltas ratSqrt (read_elev gridC6) geomC6 = [1, 3] := by
  norm_num [probeDeltas, stationA, stationB, mrrAxis_geomC6, axisLen_geomC6,
    DIST_SONDAGE, read_elev, gridC6, List.filterMap]

/-- Claim C6 (amended): for a polygon reaching the elevation probe, the
recorded de field is the element at index half the length of the sorted
list of valid-station differences, rounded to two decimals: the median
for zero, one or three valid stations, but the larger of the two
differences when exactly two stations are valid. -/
theorem C6_probe_delta_recorded (sqrtF : ℚ → ℚ) (piC : ℚ)
    (readE : ℚ → ℚ → Option ℚ) (g : Geom)
    (hE : g.geomIsEmpty = false) (hV : g.geomIsValid = true)
    (hS : ¬(0 < g.area ∧ 20 < g.perim / sqrtF g.area))
    (hL : axisLen sqrtF g ≠ 0) :
    (classifyFeat sqrtF piC readE g).de
        = round2 (deltaRaw (probeDeltas sqrtF readE g))
    ∧ (probeDeltas sqrtF readE g = []
        → (classifyFeat sqrtF piC readE g).de = 0)
    ∧ (∀ a, probeDeltas sqrtF readE g = [a]
        → (classifyFeat sqrtF piC readE g).de = round2 a)
    ∧ (∀ a b, probeDeltas sqrtF readE g = [a, b]
        → (classifyFeat sqrtF piC readE g).de = round2 (max a b)) := by
  have hde : (classifyFeat sqrtF piC readE g).de
      = round2 (deltaRaw (probeDeltas sqrtF readE g)) := by
    unfold classifyFeat
    rw [hE, hV]
    simp only [Bool.not_true, Bool.or_false, Bool.false_eq_true, if_false,
      if_neg hS, if_neg hL]
    by_cases h5 : 5 < gcOf sqrtF piC g
    · rw [if_pos h5]
    · rw [if_neg h5]
  refine ⟨hde, ?_, ?_, ?_⟩
  · intro h0
    rw [hde, h0]
    norm_num [deltaRaw, round2, rhe]
  · intro a ha
    rw [hde, ha]
    simp [deltaRaw, List.insertionSort, List.orderedInsert]
  · intro a b hab
    rw [hde, hab]
    have hdr : deltaRaw [a, b] = max a b := by
      by_cases hle : a ≤ b
      · simp [deltaRaw, List.insertionSort, List.orderedInsert, hle,
          max_eq_right hle]
      · simp [deltaRaw, List.insertionSort, List.orderedInsert, hle,
          max_eq_left (le_of_not_le hle)]
    rw [hdr]

/-- Witness for the amended C6 at the concrete grid gridC6 and polygon
geomC6. -/
theorem C6_probe_delta_recorded_witness :
    (classifyFeat ratSqrt piQ (read_elev gridC6) geomC6).de
        = round2 (deltaRaw (probeDeltas ratSqrt (read_elev gridC6) geomC6))
    ∧ (probeDeltas ratSqrt (read_elev gridC6) geomC6 = []
        → (classifyFeat ratSqrt piQ (read_elev gridC6) geomC6).de = 0)
    ∧ (∀ a, probeDeltas ratSqrt (read_elev gridC6) geomC6 = [a]
        → (classifyFeat ratSqrt piQ (read_elev gridC6) geomC6).de
            = round2 a)
    ∧ (∀ a b, probeDeltas ratSqrt (read_elev gridC6) geomC6 = [a, b]
        → (classifyFeat ratSqrt piQ (read_elev gridC6) geomC6).de
            = round2 (max a b)) :=
  C6_probe_delta_recorded ratSqrt piQ (read_elev gridC6) geomC6
    rfl rfl (by norm_num [geomC6, ratSqrt])
    (by norm_num [axisLen_geomC6])

/-- Counterexample to C6 as stated: on gridC6 exactly two probe stations
of geomC6 are valid, with differences 1 and 3; the code records 3 (the
upper of the two sorted differences) while their median is 2. -/
theorem C6_counterexample :
    probeDeltas ratSqrt (read_elev gridC6) geomC6 = [1, 3]
    ∧ (classifyFeat ratSqrt piQ (read_elev gridC6) geomC6).de = 3
    ∧ statMedian (probeDeltas ratSqrt (read_elev gridC6) geomC6) = 2
    ∧ (classifyFeat ratSqrt piQ (read_elev gridC6) geomC6).de
        ≠ statMedian (probeDeltas ratSqrt (read_elev gridC6) geomC6) := by
  have hde : (classifyFeat ratSqrt piQ (read_elev gridC6) geomC6).de = 3 := by
    norm_num [classifyFeat, ratSqrt, axisLen_geomC6, probeDeltas_gridC6,
      deltaRaw, gcOf, round2, rhe, piQ, List.insertionSort,
      List.orderedInsert,
      show geomC6.geomIsEmpty = false from rfl,
      show geomC6.geomIsValid = true from rfl,
      show geomC6.area = 16 from rfl,
      show geomC6.perim = 20 from rfl]
  have hmed : statMedian (probeDeltas ratSqrt (read_elev gridC6) geomC6)
      = 2 := by
    norm_num [statMedian, probeDeltas_gridC6, List.insertionSort,
      List.orderedInsert]
  refine ⟨probeDeltas_gridC6, hde, hmed, ?_⟩
  rw [hde, hmed]
  norm_num

/-- Claim C7: read_elev returns no reading exactly when the point is
outside the grid bounds, or its pixel coordinates fall outside the array,
or the sampled value equals the no-data sentinel, or the sampled value
lies outside [-100, 5000]; and every probe-station difference comes from
a station both of whose paired samples returned valid readings. -/
theorem C7_read_elev_contract (m : GridM) (x y : ℚ) (sqrtF : ℚ → ℚ)
    (readE : ℚ → ℚ → Option ℚ) (g : Geom) :
    (read_elev m x y = none ↔
      ((x < m.left ∨ x > m.right ∨ y < m.bottom ∨ y > m.top)
        ∨ ¬(0 ≤ (m.idx x y).1 ∧ (m.idx x y).1 < (m.height : ℤ)
            ∧ 0 ≤ (m.idx x y).2 ∧ (m.idx x y).2 < (m.width : ℤ))
        ∨ m.nodata = some (m.dataAt (m.idx x y).1 (m.idx x y).2)
        ∨ m.dataAt (m.idx x y).1 (m.idx x y).2 < -100
        ∨ m.dataAt (m.idx x y).1 (m.idx x y).2 > 5000))
    ∧ (∀ d, d ∈ probeDeltas sqrtF readE g →
        ∃ frac ∈ [(1 : ℚ) / 4, 1 / 2, 3 / 4], ∃ va vb,
          readE (stationA sqrtF g frac).1 (stationA sqrtF g frac).2
              = some va
          ∧ readE (stationB sqrtF g frac).1 (stationB sqrtF g frac).2
              = some vb
          ∧ d = |va - vb|) := by
  constructor
  · unfold read_elev
    by_cases h1 : x < m.left ∨ x > m.right ∨ y < m.bottom ∨ y > m.top
    · simp [h1]
    · rw [if_neg h1]
      by_cases h2 : 0 ≤ (m.idx x y).1 ∧ (m.idx x y).1 < (m.height : ℤ)
          ∧ 0 ≤ (m.idx x y).2 ∧ (m.idx x y).2 < (m.width : ℤ)
      · rw [if_pos h2]
        by_cases h3 : m.nodata
            = some (m.dataAt (m.idx x y).1 (m.idx x y).2)
        · simp [h1, h2, h3]
        · rw [if_neg h3]
          by_cases h4 : m.dataAt (m.idx x y).1 (m.idx x y).2 < -100
              ∨ m.dataAt (m.idx x y).1 (m.idx x y).2 > 5000
          · rw [if_pos h4]
            simp only [true_iff]
            tauto
          · rw [if_neg h4]
            constructor
            · intro hsome
              exact absurd hsome (by simp)
            · intro hr
              rcases hr with hr | hr | hr | hr | hr
              · exact absurd hr h1
              · exact absurd h2 hr
              · exact absurd hr h3
              · exact absurd (Or.inl hr) h4
              · exact absurd (Or.inr hr) h4
      · rw [if_neg h2]
        simp [h1, h2]
  · intro d hd
    simp only [probeDeltas, List.mem_filterMap] at hd
    obtain ⟨frac, hfrac, hmatch⟩ := hd
    rcases hA : readE (stationA sqrtF g frac).1 (stationA sqrtF g frac).2
      with - | va
    · rw [hA] at hmatch
      simp at hmatch
    rcases hB : readE (stationB sqrtF g frac).1 (stationB sqrtF g frac).2
      with - | vb
    · rw [hA, hB] at hmatch
      simp at hmatch
    rw [hA, hB] at hmatch
    simp only [Option.some.injEq] at hmatch
    exact ⟨frac, hfrac, va, vb, hA, hB, hmatch.symm⟩

/-- Witness for C7 at the concrete grid gridC6, the point (6,5) whose
sample 6000 is outside the sanity range, and the probe of geomC6. -/
theorem C7_read_elev_contract_witness :
    (read_elev gridC6 6 5 = none ↔
      (((6 : ℚ) < gridC6.left ∨ (6 : ℚ) > gridC6.right
          ∨ (5 : ℚ) < gridC6.bottom ∨ (5 : ℚ) > gridC6.top)
        ∨ ¬(0 ≤ (gridC6.idx 6 5).1
            ∧ (gridC6.idx 6 5).1 < (gridC6.height : ℤ)
            ∧ 0 ≤ (gridC6.idx 6 5).2
            ∧ (gridC6.idx 6 5).2 < (gridC6.width : ℤ))
        ∨ gridC6.nodata
            = some (gridC6.dataAt (gridC6.idx 6 5).1 (gridC6.idx 6 5).2)
        ∨ gridC6.dataAt (gridC6.idx 6 5).1 (gridC6.idx 6 5).2 < -100
        ∨ gridC6.dataAt (gridC6.idx 6 5).1 (gridC6.idx 6 5).2 > 5000))
    ∧ (∀ d, d ∈ probeDeltas ratSqrt (read_elev gridC6) geomC6 →
        ∃ frac ∈ [(1 : ℚ) / 4, 1 / 2, 3 / 4], ∃ va vb,
          read_elev gridC6 (stationA ratSqrt geomC6 frac).1
              (stationA ratSqrt geomC6 frac).2 = some va
          ∧ read_elev gridC6 (stationB ratSqrt geomC6 frac).1
              (stationB ratSqrt geomC6 frac).2 = some vb
          ∧ d = |va - vb|) :=
  C7_read_elev_contract gridC6 6 5 ratSqrt (read_elev gridC6) geomC6

/-- Claim C5: the global merger first attempts one bulk union and keeps
its result when it succeeds; exactly on a bulk failure it unions the
1000-element chunks of the input (a true partition into non-empty chunks
of at most 1000) and then unions the per-chunk results, so that a merged
geometry is produced whenever the fallback unions succeed. -/
theorem C5_merge_fallback {G E : Type} (uu : List G → Except E G)
    (polys : List G) (_hne : polys ≠ []) :
    (∀ g, uu polys = .ok g → mergeGlobal uu polys = .ok g)
    ∧ (∀ e, uu polys = .error e →
        ((chunksOf 1000 polys).flatten = polys
          ∧ (∀ c ∈ chunksOf 1000 polys, c ≠ [] ∧ c.length ≤ 1000)
          ∧ mergeGlobal uu polys = (chunksOf 1000 polys).mapM uu >>= uu))
    ∧ (∀ e parts merged, uu polys = .error e
        → (chunksOf 1000 polys).mapM uu = .ok parts
        → uu parts = .ok merged
        → mergeGlobal uu polys = .ok merged) := by
  refine ⟨?_, ?_, ?_⟩
  · intro g hg
    simp [mergeGlobal, hg]
  · intro e he
    refine ⟨chunksOf_flatten 1000 polys,
      chunksOf_mem_length_le 1000 (by norm_num) polys, ?_⟩
    rcases hmap : (chunksOf 1000 polys).mapM uu with e2 | parts <;>
      simp only [mergeGlobal, he, hmap] <;> rfl
  · intro e parts merged he hparts hm
    simp only [mergeGlobal, he, hparts, hm]

/-- Witness for C5 at the two-polygon list [1, 2] and the concrete union
collaborator uuC3. -/
theorem C5_merge_fallback_witness :
    (∀ g, uuC3 [1, 2] = .ok g → mergeGlobal uuC3 [1, 2] = .ok g)
    ∧ (∀ e, uuC3 [1, 2] = .error e →
        ((chunksOf 1000 [1, 2]).flatten = [1, 2]
          ∧ (∀ c ∈ chunksOf 1000 [1, 2], c ≠ [] ∧ c.length ≤ 1000)
          ∧ mergeGlobal uuC3 [1, 2]
              = (chunksOf 1000 [1, 2]).mapM uuC3 >>= uuC3))
    ∧ (∀ e parts merged, uuC3 [1, 2] = .error e
        → (chunksOf 1000 [1, 2]).mapM uuC3 = .ok parts
        → uuC3 parts = .ok merged
        → mergeGlobal uuC3 [1, 2] = .ok merged) :=
  C5_merge_fallback uuC3 [1, 2] (List.cons_ne_nil 1 [2])

/-- Claim C4 (amended): the closing operation and the area filter of the
worker run on each traced fragment independently: a fragment whose own
post-closing area is below the floor is dropped no matter what else the
window contains, and removing it does not change the batch output.
Fragments from distinct traced shapes are never merged before the filter
(cross-fragment merging only happens later, in the global union). -/
theorem C4_per_fragment_filter {G : Type} (ops : WOps G)
    (minArea tol : ℚ) (w1 w2 : List G) (g : G)
    (h : ops.area (closedOf ops tol g) < minArea) :
    processGeom ops minArea tol g = none
    ∧ processBatch ops minArea tol [w1 ++ g :: w2]
        = processBatch ops minArea tol [w1 ++ w2] := by
  have hnone : processGeom ops minArea tol g = none := by
    simp only [processGeom]
    simp only [closedOf] at h
    split_ifs with h1 h2 <;> simp_all
  refine ⟨hnone, ?_⟩
  simp [processBatch, List.filterMap_append, List.filterMap_cons, hnone]

/-- Witness for the amended C4: a single 15-square-metre convex fragment
next to another is dropped by the per-fragment filter. -/
theorem C4_per_fragment_filter_witness :
    processGeom opsC4 MIN_AREA (1 / 2) 15 = none
    ∧ processBatch opsC4 MIN_AREA (1 / 2) [[] ++ 15 :: [15]]
        = processBatch opsC4 MIN_AREA (1 / 2) [[] ++ [15]] :=
  C4_per_fragment_filter opsC4 MIN_AREA (1 / 2) [] [15] 15
    (by norm_num [opsC4, closedOf, MIN_AREA])

/-- Counterexample to C4 as stated: two traced fragments of area 15 in
one window (the closing of a convex fragment is the fragment itself, so
each keeps area 15); the claim predicts a merged 35-square-metre polygon
that survives the 20-square-metre floor, but the worker drops each
fragment on its own area and returns nothing. -/
theorem C4_counterexample :
    processBatch opsC4 MIN_AREA (1 / 2) [[15, 15]] = []
    ∧ ¬∃ f ∈ processBatch opsC4 MIN_AREA (1 / 2) [[15, 15]],
        20 ≤ opsC4.area f := by
  have hempty : processBatch opsC4 MIN_AREA (1 / 2) [[15, 15]] = [] := by
    norm_num [processBatch, processGeom, opsC4, MIN_AREA,
      List.filterMap_cons]
  refine ⟨hempty, ?_⟩
  rw [hempty]
  simp

/-- Claim C3 (amended): when no polygons were collected, the
vectorization stage takes its early return: the global merge and the
export are not attempted, no output is written, and no error is raised. -/
theorem C3_empty_input (G E F : Type) (uu : List G → Except E G)
    (ops : VOps G F) :
    etapeVectorisation uu ops ([] : List G) = .noPolygons
    ∧ (∀ e : E, (VectResult.noPolygons : VectResult E F) ≠ .failed e)
    ∧ (∀ fs : List F,
        (VectResult.noPolygons : VectResult E F) ≠ .written fs) := by
  refine ⟨rfl, ?_, ?_⟩ <;> intro x hx <;> exact VectResult.noConfusion hx

/-- Witness for the amended C3 with the concrete collaborators uuC3 and
opsC3. -/
theorem C3_empty_input_witness :
    etapeVectorisation uuC3 opsC3 ([] : List ℕ) = .noPolygons
    ∧ (∀ e : Unit, (VectResult.noPolygons : VectResult Unit ℕ) ≠ .failed e)
    ∧ (∀ fs : List ℕ,
        (VectResult.noPolygons : VectResult Unit ℕ) ≠ .written fs) :=
  C3_empty_input ℕ Unit ℕ uuC3 opsC3

/-- Counterexample to C3 as stated: with zero collected polygons the
stage returns its no-polygons marker before the merge and the export, so
no feature collection (in particular no empty one) is ever produced. -/
theorem C3_counterexample :
    ¬∃ feats : List ℕ, etapeVectorisation uuC3 opsC3 [] = .written feats := by
  intro hex
  obtain ⟨feats, hf⟩ := hex
  have hred : etapeVectorisation uuC3 opsC3 ([] : List ℕ)
      = .noPolygons := rfl
  rw [hred] at hf
  exact VectResult.noConfusion hf

end Terrasses
